import Mathlib

/-!
Shallow embedding of the settle mint's balance store (src/mint/model/balance.go)
and of the API controller (src/api/controller.go), together with theorems about
the behaviour of those operations.

Conventions of the embedding:
* the SQL `balances` table is a list of rows in physical insertion order;
* the two nondeterministic inputs of `CreateCanonicalBalance` — the value of
  `token.New("balance")` and of `time.Now().UTC()` — are passed as explicit
  parameters `tok` and `now`;
* the storage engine is a parameter carrying its kind (postgres or sqlite, the
  two engines the source discriminates on) and an optional injected fault that
  models an opaque engine-level failure of the next statement;
* each store operation also returns the list of SQL statements it issued, so
  that statements such as "no existence pre-check is performed" are provable.
-/

set_option autoImplicit false

namespace Settle

/-- Modelled from the spec: `mint.PgType`, the propagation marker — the enum
`{Canonical, Propagated}` of §3 (the `mint` package is not under the visible
source). -/
inductive PgType where
  | canonical
  | propagated
  deriving DecidableEq, Repr

/-- Modelled from the spec: `Amount`, the arbitrary-precision scalar used for
balance values (§3, §4.3; the `Amount` type's own file is not under the visible
source). It is backed by a big integer whose zero value is `0`; non-negativity
is an invariant guarded by the arithmetic operations and by caller obligations
(§4.2 "Save does not re-check invariants", §8), not by the representation. -/
abbrev Amount := Int

/-- The `Balance` struct of src/mint/model/balance.go (lines 24-33). `Created`
is a timestamp, abstracted to a natural number. -/
structure Balance where
  Owner : String
  Token : String
  Created : Nat
  Propagation : PgType
  Asset : String
  Holder : String
  Value : Amount
  deriving DecidableEq, Repr

/-- A storage-engine error, as discriminated by the switch in
`CreateCanonicalBalance` (balance.go:62-71): a `*pq.Error` is inspected through
`err.Code.Name()`, a `sqlite3.Error` through `err.ExtendedCode`, and anything
else is opaque. -/
inductive StorageError where
  | pqError (codeName : String)
  | sqlite3Error (extendedCode : Nat)
  | otherError (msg : String)
  deriving DecidableEq, Repr

/-- `sqlite3.ErrConstraintUnique`: extended result code
`SQLITE_CONSTRAINT_UNIQUE = 19 | (8 << 8) = 2067`. -/
def sqlite3ErrConstraintUnique : Nat := 2067

/-- The two SQL engines the visible source discriminates on. -/
inductive EngineKind where
  | postgres
  | sqlite
  deriving DecidableEq, Repr

/-- The unique-violation signal each engine reports on a uniqueness-constraint
failure: PostgreSQL error code named "unique_violation", SQLite extended code
`ErrConstraintUnique`. -/
def uniqueViolationSignal : EngineKind → StorageError
  | .postgres => .pqError "unique_violation"
  | .sqlite => .sqlite3Error sqlite3ErrConstraintUnique

/-- Whether a storage error is one of the two unique-violation signals the
source recognises. -/
def isUniqueViolationSignal : StorageError → Bool
  | .pqError codeName => codeName == "unique_violation"
  | .sqlite3Error extendedCode => extendedCode == sqlite3ErrConstraintUnique
  | .otherError _ => false

/-- A storage engine handle: its kind, and an optional injected fault that the
next statement will report (modelling connectivity or other opaque engine
failures). -/
structure Engine where
  kind : EngineKind
  fault : Option StorageError
  deriving DecidableEq, Repr

/-- The `balances` table, in physical insertion order. -/
abbrev DB := List Balance

/-- Modelled from the spec: the uniqueness constraints of the persisted layout
(§6 — `token (unique)` and "a uniqueness constraint on
`(asset, holder, propagation)`"); the schema DDL is not under the visible
source. -/
def insertConflicts (db : DB) (b : Balance) : Bool :=
  db.any fun r =>
    r.Token == b.Token
      || (r.Asset == b.Asset && r.Holder == b.Holder
            && r.Propagation == b.Propagation)

/-- The INSERT INTO balances statement (balance.go:56-61): reports the injected
fault if any, else the engine's unique-violation signal on a constraint
conflict, else appends the row. -/
def insertRow (eng : Engine) (db : DB) (b : Balance) : Except StorageError DB :=
  match eng.fault with
  | some e => .error e
  | none =>
    if insertConflicts db b then .error (uniqueViolationSignal eng.kind)
    else .ok (db ++ [b])

/-- An error surfaced by a Balance Store operation: either
`ErrUniqueConstraintViolation` (wrapping the engine error, as the Go struct
literal `ErrUniqueConstraintViolation{err}` does) or the untouched opaque
storage error (passed through `errors.Trace` unchanged in kind). -/
inductive ModelErr where
  | uniqueConstraintViolation (wrapped : StorageError)
  | storage (e : StorageError)
  deriving DecidableEq, Repr

/-- The error switch of `CreateCanonicalBalance` (balance.go:62-72): a pq error
named "unique_violation" or a sqlite3 error with extended code
`ErrConstraintUnique` becomes `ErrUniqueConstraintViolation`; every other error
falls through and is returned unchanged. -/
def classifyInsertError (e : StorageError) : ModelErr :=
  match e with
  | .pqError codeName =>
    if codeName == "unique_violation" then .uniqueConstraintViolation e
    else .storage e
  | .sqlite3Error extendedCode =>
    if extendedCode == sqlite3ErrConstraintUnique then
      .uniqueConstraintViolation e
    else .storage e
  | .otherError _ => .storage e

/-- A SQL statement issued by the store or controller, recorded in traces. -/
inductive StorageOpKind where
  | insertOp (b : Balance)
  | selectOp (asset holder : String)
  | updateOp (owner token : String) (value : Amount)
  deriving DecidableEq, Repr

/-- The balance struct literal built at balance.go:44-53. -/
def mkCanonicalBalance (tok : String) (now : Nat) (owner asset holder : String)
    (value : Amount) : Balance :=
  { Owner := owner, Token := tok, Created := now,
    Propagation := PgType.canonical, Asset := asset, Holder := holder,
    Value := value }

/-- `CreateCanonicalBalance` (balance.go:37-76): builds the balance, issues the
single INSERT, and maps the insert error through the error switch. The second
component is the trace of statements issued. -/
def CreateCanonicalBalance (eng : Engine) (db : DB) (tok : String) (now : Nat)
    (owner asset holder : String) (value : Amount) :
    Except ModelErr (Balance × DB) × List StorageOpKind :=
  match insertRow eng db (mkCanonicalBalance tok now owner asset holder value) with
  | .ok db2 =>
    (.ok (mkCanonicalBalance tok now owner asset holder value, db2),
     [.insertOp (mkCanonicalBalance tok now owner asset holder value)])
  | .error err =>
    (.error (classifyInsertError err),
     [.insertOp (mkCanonicalBalance tok now owner asset holder value)])

/-- The row set produced by the UPDATE of `Balance.Save` (balance.go:83-88):
`SET value = :value WHERE owner = :owner AND token = :token`. -/
def saveRows (db : DB) (b : Balance) : DB :=
  db.map fun r =>
    if r.Owner == b.Owner && r.Token == b.Token then { r with Value := b.Value }
    else r

/-- `Balance.Save` (balance.go:79-94): issues the UPDATE and propagates a
storage error unchanged; it performs no check on the new value. -/
def Balance.Save (eng : Engine) (db : DB) (b : Balance) :
    Except StorageError DB × List StorageOpKind :=
  match eng.fault with
  | some e => (.error e, [.updateOp b.Owner b.Token b.Value])
  | none => (.ok (saveRows db b), [.updateOp b.Owner b.Token b.Value])

/-- The row set returned by the SELECT of `LoadCanonicalBalanceByAssetHolder`
(balance.go:110-115): it filters on asset and holder only. -/
def queryByAssetHolder (db : DB) (asset holder : String) : List Balance :=
  db.filter fun r => r.Asset == asset && r.Holder == holder

/-- `LoadCanonicalBalanceByAssetHolder` (balance.go:98-127): returns the first
row of the query (`rows.Next` then `rows.StructScan`, which overwrites every
field of the pre-initialised struct), `none` when the result set is empty, and
the storage error unchanged when the query itself fails. -/
def LoadCanonicalBalanceByAssetHolder (eng : Engine) (db : DB)
    (asset holder : String) :
    Except StorageError (Option Balance) × List StorageOpKind :=
  match eng.fault with
  | some e => (.error e, [.selectOp asset holder])
  | none =>
    (.ok (queryByAssetHolder db asset holder).head?, [.selectOp asset holder])

/-- `LoadOrCreateCanonicalBalanceByAssetHolder` (balance.go:132-149): attempts
the load; on absence, attempts the create with a zero value (`Amount{}`). -/
def LoadOrCreateCanonicalBalanceByAssetHolder (eng : Engine) (db : DB)
    (tok : String) (now : Nat) (owner asset holder : String) :
    Except ModelErr (Balance × DB) × List StorageOpKind :=
  match LoadCanonicalBalanceByAssetHolder eng db asset holder with
  | (.error e, tr) => (.error (.storage e), tr)
  | (.ok (some b), tr) => (.ok (b, db), tr)
  | (.ok none, tr) =>
    let next := CreateCanonicalBalance eng db tok now owner asset holder 0
    (next.1, tr ++ next.2)

/-- One call to an exposed Balance Store operation: the engine handle for that
call and the call's inputs (for creates, also the nondeterministic token and
timestamp). -/
inductive StoreCall where
  | createCall (eng : Engine) (tok : String) (now : Nat)
      (owner asset holder : String) (value : Amount)
  | saveCall (eng : Engine) (b : Balance)
  | loadCall (eng : Engine) (asset holder : String)
  | loadOrCreateCall (eng : Engine) (tok : String) (now : Nat)
      (owner asset holder : String)
  deriving DecidableEq, Repr

/-- The database state after one store call; a failed statement leaves the
database unchanged (the storage engine rolls it back). -/
def applyCall (db : DB) (c : StoreCall) : DB :=
  match c with
  | .createCall eng tok now owner asset holder value =>
    match (CreateCanonicalBalance eng db tok now owner asset holder value).1 with
    | .ok (_, db2) => db2
    | .error _ => db
  | .saveCall eng b =>
    match (Balance.Save eng db b).1 with
    | .ok db2 => db2
    | .error _ => db
  | .loadCall _ _ _ => db
  | .loadOrCreateCall eng tok now owner asset holder =>
    match (LoadOrCreateCanonicalBalanceByAssetHolder
        eng db tok now owner asset holder).1 with
    | .ok (_, db2) => db2
    | .error _ => db

/-- The database state after a sequential execution of store calls. -/
def applyCalls (db : DB) (cs : List StoreCall) : DB := cs.foldl applyCall db

/-- The token of the first row matching `(asset, holder)`, the row
`LoadCanonicalBalanceByAssetHolder` returns. -/
def firstMatchToken (db : DB) (asset holder : String) : Option String :=
  (db.find? fun r => r.Asset == asset && r.Holder == holder).map Balance.Token

/-- Whether the amount a store call carries is non-negative (trivially true for
the calls that carry none: load-or-create creates with value zero). -/
def callValueNonneg : StoreCall → Prop
  | .createCall _ _ _ _ _ _ value => 0 ≤ value
  | .saveCall _ b => 0 ≤ b.Value
  | .loadCall _ _ _ => True
  | .loadOrCreateCall _ _ _ _ _ _ => True

/-! ### The API controller (src/api/controller.go) -/

/-- `DefaultRetrieveChallengesCount` (controller.go:26): the number of
challenges returned when the count attribute is not specified. -/
def DefaultRetrieveChallengesCount : Nat := 10

/-- `MaxRetrieveChallengesCount` (controller.go:29): the declared maximum
number of challenges that can be retrieved. -/
def MaxRetrieveChallengesCount : Nat := 10

/-- `strconv.ParseUint(s, 10, 64)`: a nonempty string of decimal digits whose
value fits in 64 bits; anything else (empty, sign, other characters, overflow)
is an error. -/
def parseUint10 (s : String) : Option Nat :=
  if s.isEmpty then none
  else if s.toList.all Char.isDigit then
    let n := s.toList.foldl (fun acc c => acc * 10 + (c.toNat - 48)) 0
    if n < 2 ^ 64 then some n else none
  else none

/-- A user-facing error: HTTP status and machine-readable error code, as built
by `errors.NewUserError`. -/
structure UserError where
  status : Nat
  code : String
  deriving DecidableEq, Repr

/-- The signing keypairs of the authentication package. Modelled from the spec:
per-livemode trust anchors (§6 "signing keys"); only `RootLiveKeypair` appears
in the visible source. -/
inductive Keypair where
  | rootLive
  | rootTest
  deriving DecidableEq, Repr

/-- The keypair `RetrieveChallenges` passes to `authentication.MintChallenge`
(controller.go:85): `authentication.RootLiveKeypair`, whatever the livemode of
the request. -/
def retrieveChallengesSigningKeypair : Bool → Keypair := fun _ => Keypair.rootLive

/-- The count of challenges `RetrieveChallenges` mints (controller.go:65-80):
the default when the count attribute is absent (the empty query value),
otherwise the parsed value, rejected as `count_invalid` when it does not parse
as an unsigned integer or is at least 100. -/
def retrieveChallengesCount (attr : String) : Except UserError Nat :=
  if attr == "" then .ok DefaultRetrieveChallengesCount
  else
    match parseUint10 attr with
    | none => .error ⟨400, "count_invalid"⟩
    | some n =>
      if n ≥ 100 then .error ⟨400, "count_invalid"⟩ else .ok n

/-- `controller.RetrieveChallenges` (controller.go:60-100): determines the
count, then mints that many challenges in order. `mintOne` abstracts one
successful `authentication.MintChallenge` call, indexed by loop position. -/
def RetrieveChallenges {α : Type} (mintOne : Nat → α) (attr : String) :
    Except UserError (List α) :=
  match retrieveChallengesCount attr with
  | .error e => .error e
  | .ok n => .ok ((List.range n).map mintOne)

/-- `usernameRegexp = ^[a-z0-9]{1,256}$` (controller.go:39-40). -/
def usernameValid (s : String) : Bool :=
  decide (1 ≤ s.length) && decide (s.length ≤ 256)
    && s.toList.all fun c => c.isLower || c.isDigit

/-- The local-part character class `[a-z0-9_\.\+\-]` of the email regexp. -/
def isEmailLocalChar (c : Char) : Bool :=
  c.isLower || c.isDigit || c == '_' || c == '.' || c == '+' || c == '-'

/-- The first domain-label character class `[a-z0-9-]` of the email regexp. -/
def isEmailDomainChar (c : Char) : Bool := c.isLower || c.isDigit || c == '-'

/-- The trailing character class `[a-z0-9-\.]` of the email regexp. -/
def isEmailRestChar (c : Char) : Bool :=
  c.isLower || c.isDigit || c == '-' || c == '.'

/-- `emailRegexp = ^[a-z0-9_\.\+\-]+@[a-z0-9-]+\.[a-z0-9-\.]+$`
(controller.go:43-44). Because '@' belongs to no character class and '.' does
not belong to the domain class, the anchored regex match is equivalent to this
greedy split. -/
def emailValid (s : String) : Bool :=
  let cs := s.toList
  let locPart := cs.takeWhile isEmailLocalChar
  match cs.dropWhile isEmailLocalChar with
  | '@' :: afterAt =>
    let domPart := afterAt.takeWhile isEmailDomainChar
    (match afterAt.dropWhile isEmailDomainChar with
     | '.' :: tail =>
       !locPart.isEmpty && !domPart.isEmpty && !tail.isEmpty
         && tail.all isEmailRestChar
     | _ => false)
  | _ => false

/-- The standard base64 alphabet `A-Za-z0-9+/`. -/
def isBase64StdChar (c : Char) : Bool :=
  c.isUpper || c.isLower || c.isDigit || c == '+' || c == '/'

/-- `base64.StdEncoding.DecodeString` succeeds: length a multiple of four,
standard alphabet, at most two padding characters and only at the end. -/
def base64StdValid (s : String) : Bool :=
  let cs := s.toList
  decide (cs.length % 4 = 0)
    && (match cs.reverse with
        | '=' :: '=' :: r => r.all isBase64StdChar
        | '=' :: r => r.all isBase64StdChar
        | _ => cs.all isBase64StdChar)

/-- `emailVerifiers` (controller.go:47-56): the trusted email verifiers by
livemode. -/
def emailVerifiers (livemode : Bool) : List String :=
  if livemode then
    ["GBTIKKWP5FOCMRSTJS46SCTWC6IKCHWDJMJMP6QLFGNYPRTCY63E5T3N"]
  else
    ["GDFZHVU2PNOFR5KXKDBW72ZF45TXTC6LOOLGJK7XD7V2JYQB4KIOEXKN"]

/-- Lower-casing of one character, as `strings.ToLower` acts on the ASCII
range (the character classes accepted downstream are ASCII-only). -/
def asciiLowerChar (c : Char) : Char :=
  if c.isUpper then Char.ofNat (c.toNat + 32) else c

/-- `strings.ToLower` (controller.go:112), on the ASCII range. -/
def asciiToLower (s : String) : String := String.mk (s.toList.map asciiLowerChar)

/-- The `UserParams` value built at controller.go:107-114. -/
structure UserParams where
  Livemode : Bool
  Address : String
  Username : String
  EncryptedSeed : String
  Email : String
  Verifier : String
  deriving DecidableEq, Repr

/-- The outcome of `controller.CreateUser`: an early rejection with a
user-facing error, or a fall-through past every validation gate (the rest of
the Go body is unimplemented). -/
inductive CreateUserOutcome where
  | rejected (e : UserError)
  | passedAllChecks
  deriving DecidableEq, Repr

/-- `controller.CreateUser` (controller.go:102-204). `loadAccountOk` is the
outcome of `clients[livemode].LoadAccount` and `checkFactOk` that of
`facts.CheckFact`, the two external collaborators. The Go body performs no
write on any path (its tail is unimplemented comments), so the returned trace
of issued statements is empty everywhere. -/
def CreateUser (loadAccountOk checkFactOk : Bool) (livemode : Bool)
    (address usernameForm seedForm emailForm verifierForm : String) :
    CreateUserOutcome × List StorageOpKind :=
  let p : UserParams :=
    { Livemode := livemode, Address := address, Username := usernameForm,
      EncryptedSeed := seedForm, Email := asciiToLower emailForm,
      Verifier := verifierForm }
  if usernameValid p.Username = false then
    (.rejected ⟨400, "username_invalid"⟩, [])
  else if emailValid p.Email = false ∨ 256 < p.Email.length then
    (.rejected ⟨400, "email_invalid"⟩, [])
  else if base64StdValid p.EncryptedSeed = false ∨ 256 < p.EncryptedSeed.length then
    (.rejected ⟨400, "encrypted_seed_invalid"⟩, [])
  else if loadAccountOk = false then
    (.rejected ⟨400, "address_invalid"⟩, [])
  else if (emailVerifiers p.Livemode).contains p.Verifier = false then
    (.rejected ⟨400, "email_verifier_unknown"⟩, [])
  else if checkFactOk = false then
    (.rejected ⟨400, "email_verification_failed"⟩, [])
  else (.passedAllChecks, [])

/-! ### Helper lemmas -/

theorem head?_filter_eq_find? {α : Type} (p : α → Bool) (l : List α) :
    (l.filter p).head? = l.find? p := by
  induction l with
  | nil => rfl
  | cons a l ih =>
    by_cases h : p a
    · simp [List.filter_cons, h]
    · simp [List.filter_cons, h, ih]

theorem load_fst_eq_find? (eng : Engine) (db : DB) (asset holder : String)
    (hf : eng.fault = none) :
    (LoadCanonicalBalanceByAssetHolder eng db asset holder).1 =
      .ok (db.find? fun r => r.Asset == asset && r.Holder == holder) := by
  simp [LoadCanonicalBalanceByAssetHolder, hf, queryByAssetHolder,
    head?_filter_eq_find?]

/-! ### The claims -/

/-- C1: `CreateCanonicalBalance` issues exactly one statement, the INSERT of
the new row — in particular no existence pre-check before it; whenever the
insert reports an error, that error goes through the classification switch:
the two unique-violation signals (PostgreSQL code named "unique_violation",
SQLite extended code `ErrConstraintUnique`) become
`ErrUniqueConstraintViolation`, and every other storage error is returned
unchanged in kind as an opaque storage error. -/
theorem c1_create_unique_violation_mapping (eng : Engine) (db : DB)
    (tok : String) (now : Nat) (owner asset holder : String) (value : Amount) :
    (CreateCanonicalBalance eng db tok now owner asset holder value).2 =
      [.insertOp (mkCanonicalBalance tok now owner asset holder value)]
    ∧ (∀ e : StorageError,
        insertRow eng db (mkCanonicalBalance tok now owner asset holder value) =
            .error e →
          (CreateCanonicalBalance eng db tok now owner asset holder value).1 =
            .error (classifyInsertError e))
    ∧ (∀ e : StorageError, isUniqueViolationSignal e = true →
        classifyInsertError e = .uniqueConstraintViolation e)
    ∧ (∀ e : StorageError, isUniqueViolationSignal e = false →
        classifyInsertError e = .storage e) := by
  refine ⟨?_, ?_, ?_, ?_⟩
  · unfold CreateCanonicalBalance
    cases h : insertRow eng db (mkCanonicalBalance tok now owner asset holder value) <;>
      simp [h]
  · intro e he
    unfold CreateCanonicalBalance
    simp [he]
  · intro e he
    cases e with
    | pqError codeName =>
      simp only [isUniqueViolationSignal] at he
      simp [classifyInsertError, he]
    | sqlite3Error extendedCode =>
      simp only [isUniqueViolationSignal] at he
      simp [classifyInsertError, he]
    | otherError msg => simp [isUniqueViolationSignal] at he
  · intro e he
    cases e with
    | pqError codeName =>
      simp only [isUniqueViolationSignal] at he
      simp [classifyInsertError, he]
    | sqlite3Error extendedCode =>
      simp only [isUniqueViolationSignal] at he
      simp [classifyInsertError, he]
    | otherError msg => simp [classifyInsertError]

/-- C1 witness: on a postgres engine whose insert fails with an opaque
connectivity error, the create returns that error unchanged in kind, after a
trace of exactly one INSERT. -/
theorem c1_witness :
    (CreateCanonicalBalance
        ⟨EngineKind.postgres, some (StorageError.otherError "io failure")⟩
        [] "tok" 0 "own" "ast" "hld" 1).1 =
      .error (.storage (.otherError "io failure"))
    ∧ (CreateCanonicalBalance
        ⟨EngineKind.postgres, some (StorageError.otherError "io failure")⟩
        [] "tok" 0 "own" "ast" "hld" 1).2 =
      [.insertOp (mkCanonicalBalance "tok" 0 "own" "ast" "hld" 1)] := by
  have h := c1_create_unique_violation_mapping
    ⟨EngineKind.postgres, some (StorageError.otherError "io failure")⟩
    [] "tok" 0 "own" "ast" "hld" 1
  refine ⟨?_, h.1⟩
  have h2 := h.2.1 (.otherError "io failure") (by rfl)
  have h4 := h.2.2.2 (.otherError "io failure") (by rfl)
  rw [h2, h4]

/-- C4: when no record for `(asset, holder)` exists and the query itself does
not fail, the load returns `none` with no error; when the query fails, the
storage error is returned — absence is distinguished from failure and never
surfaced as an error. -/
theorem c4_load_absence_is_not_error (eng : Engine) (db : DB)
    (asset holder : String) :
    (eng.fault = none →
      (∀ r ∈ db, ¬(r.Asset = asset ∧ r.Holder = holder)) →
      (LoadCanonicalBalanceByAssetHolder eng db asset holder).1 = .ok none)
    ∧ (∀ e, eng.fault = some e →
        (LoadCanonicalBalanceByAssetHolder eng db asset holder).1 = .error e) := by
  constructor
  · intro hf habs
    rw [load_fst_eq_find? eng db asset holder hf]
    have : db.find? (fun r => r.Asset == asset && r.Holder == holder) = none := by
      rw [List.find?_eq_none]
      intro r hr
      have := habs r hr
      simp only [Bool.and_eq_true, beq_iff_eq]
      tauto
    rw [this]
  · intro e he
    simp [LoadCanonicalBalanceByAssetHolder, he]

/-- C4 witness: on a one-row table holding a different holder's balance, the
load for an absent pair returns `none` without error, and with an injected
fault the same load surfaces the fault. -/
theorem c4_witness :
    (LoadCanonicalBalanceByAssetHolder ⟨EngineKind.sqlite, none⟩
        [mkCanonicalBalance "t" 0 "ow" "as" "other" 3] "as" "ho").1 = .ok none
    ∧ (LoadCanonicalBalanceByAssetHolder
        ⟨EngineKind.sqlite, some (StorageError.otherError "down")⟩
        [mkCanonicalBalance "t" 0 "ow" "as" "other" 3] "as" "ho").1 =
      .error (StorageError.otherError "down") := by
  constructor
  · exact (c4_load_absence_is_not_error ⟨EngineKind.sqlite, none⟩
      [mkCanonicalBalance "t" 0 "ow" "as" "other" 3] "as" "ho").1 rfl (by decide)
  · exact (c4_load_absence_is_not_error
      ⟨EngineKind.sqlite, some (StorageError.otherError "down")⟩
      [mkCanonicalBalance "t" 0 "ow" "as" "other" 3] "as" "ho").2
      (StorageError.otherError "down") rfl

/-- C9: the SELECT of `LoadCanonicalBalanceByAssetHolder` filters only on asset
and holder, not on propagation: on a stored state whose only record for the
pair is a Propagated balance, the function returns that propagated record,
with its Propagation as stored, rather than `none`. -/
theorem c9_load_returns_propagated_record (eng : Engine) (b : Balance)
    (hf : eng.fault = none) (hp : b.Propagation = PgType.propagated) :
    (LoadCanonicalBalanceByAssetHolder eng [b] b.Asset b.Holder).1 =
      .ok (some b)
    ∧ ∀ b2, (LoadCanonicalBalanceByAssetHolder eng [b] b.Asset b.Holder).1 =
        .ok (some b2) → b2.Propagation = PgType.propagated := by
  have hload : (LoadCanonicalBalanceByAssetHolder eng [b] b.Asset b.Holder).1 =
      .ok (some b) := by
    rw [load_fst_eq_find? eng [b] b.Asset b.Holder hf]
    simp
  refine ⟨hload, ?_⟩
  intro b2 h2
  rw [hload] at h2
  have : b2 = b := by
    cases h2
    rfl
  rw [this, hp]

/-- C9 witness: a concrete propagated-only state is returned as stored. -/
theorem c9_witness :
    (LoadCanonicalBalanceByAssetHolder ⟨EngineKind.postgres, none⟩
        [{ Owner := "ow", Token := "tk", Created := 7,
           Propagation := PgType.propagated, Asset := "as", Holder := "ho",
           Value := 5 }] "as" "ho").1 =
      .ok (some { Owner := "ow", Token := "tk", Created := 7,
                  Propagation := PgType.propagated, Asset := "as",
                  Holder := "ho", Value := 5 }) :=
  (c9_load_returns_propagated_record ⟨EngineKind.postgres, none⟩
    { Owner := "ow", Token := "tk", Created := 7,
      Propagation := PgType.propagated, Asset := "as", Holder := "ho",
      Value := 5 } rfl rfl).1

/-- C5: a successful `Save` changes only the value column of the rows whose
owner and token equal the balance's Owner and Token: the table keeps its
length, every row keeps its Owner, Token, Created, Propagation, Asset and
Holder, non-matching rows keep their Value, and matching rows take the new
Value — whatever it is: `Save` accepts every value without any invariant
re-check and issues exactly the one UPDATE. -/
theorem c5_save_frame (eng : Engine) (db : DB) (b : Balance)
    (hf : eng.fault = none) :
    (Balance.Save eng db b).1 = .ok (saveRows db b)
    ∧ (Balance.Save eng db b).2 = [.updateOp b.Owner b.Token b.Value]
    ∧ (saveRows db b).length = db.length
    ∧ ∀ i (h1 : i < db.length) (h2 : i < (saveRows db b).length),
        ((saveRows db b).get ⟨i, h2⟩).Owner = (db.get ⟨i, h1⟩).Owner
        ∧ ((saveRows db b).get ⟨i, h2⟩).Token = (db.get ⟨i, h1⟩).Token
        ∧ ((saveRows db b).get ⟨i, h2⟩).Created = (db.get ⟨i, h1⟩).Created
        ∧ ((saveRows db b).get ⟨i, h2⟩).Propagation = (db.get ⟨i, h1⟩).Propagation
        ∧ ((saveRows db b).get ⟨i, h2⟩).Asset = (db.get ⟨i, h1⟩).Asset
        ∧ ((saveRows db b).get ⟨i, h2⟩).Holder = (db.get ⟨i, h1⟩).Holder
        ∧ ((db.get ⟨i, h1⟩).Owner = b.Owner ∧ (db.get ⟨i, h1⟩).Token = b.Token →
            ((saveRows db b).get ⟨i, h2⟩).Value = b.Value)
        ∧ (¬((db.get ⟨i, h1⟩).Owner = b.Owner ∧ (db.get ⟨i, h1⟩).Token = b.Token) →
            ((saveRows db b).get ⟨i, h2⟩).Value = (db.get ⟨i, h1⟩).Value) := by
  refine ⟨by simp [Balance.Save, hf], by simp [Balance.Save, hf],
    by simp [saveRows], ?_⟩
  intro i h1 h2
  have hg : (saveRows db b).get ⟨i, h2⟩ =
      (if (db.get ⟨i, h1⟩).Owner == b.Owner && (db.get ⟨i, h1⟩).Token == b.Token
       then { db.get ⟨i, h1⟩ with Value := b.Value } else db.get ⟨i, h1⟩) := by
    simp [saveRows, List.get_eq_getElem]
  by_cases hc : (db.get ⟨i, h1⟩).Owner = b.Owner ∧ (db.get ⟨i, h1⟩).Token = b.Token
  · rw [hg, if_pos (by rw [hc.1, hc.2]; simp)]
    exact ⟨rfl, rfl, rfl, rfl, rfl, rfl, fun _ => rfl, fun hn => absurd hc hn⟩
  · rw [hg, if_neg ?_]
    · exact ⟨rfl, rfl, rfl, rfl, rfl, rfl, fun hcc => absurd hcc hc, fun _ => rfl⟩
    · simp only [Bool.and_eq_true, beq_iff_eq]
      exact fun h => hc ⟨h.1, h.2⟩

/-- C5 witness: on a two-row table, saving a new value (here a negative one,
showing the absence of any re-check) rewrites only the matching row's value. -/
theorem c5_witness :
    0 < ([mkCanonicalBalance "t1" 0 "ow" "as" "h1" 4,
          mkCanonicalBalance "t2" 0 "ow" "as" "h2" 9] : DB).length
    ∧ (Balance.Save ⟨EngineKind.postgres, none⟩
        [mkCanonicalBalance "t1" 0 "ow" "as" "h1" 4,
         mkCanonicalBalance "t2" 0 "ow" "as" "h2" 9]
        (mkCanonicalBalance "t1" 0 "ow" "as" "h1" (-2))).1 =
      .ok [mkCanonicalBalance "t1" 0 "ow" "as" "h1" (-2),
           mkCanonicalBalance "t2" 0 "ow" "as" "h2" 9] := by
  have h := c5_save_frame ⟨EngineKind.postgres, none⟩
    [mkCanonicalBalance "t1" 0 "ow" "as" "h1" 4,
     mkCanonicalBalance "t2" 0 "ow" "as" "h2" 9]
    (mkCanonicalBalance "t1" 0 "ow" "as" "h1" (-2)) rfl
  refine ⟨by decide, ?_⟩
  rw [h.1]
  rfl

/-- C2: on a state with no record for `(asset, holder)` and a fresh token,
load-or-create creates and returns a balance whose Value is the zero Amount,
whose Propagation is Canonical, whose Owner, Asset and Holder are the given
arguments and whose Token is the freshly minted one, appending exactly that
row; on a state that has a record, it returns the loaded record and changes
nothing. -/
theorem c2_load_or_create_semantics (eng : Engine) (db : DB) (tok : String)
    (now : Nat) (owner asset holder : String)
    (hf : eng.fault = none)
    (htok : ∀ r ∈ db, r.Token ≠ tok) :
    ((∀ r ∈ db, ¬(r.Asset = asset ∧ r.Holder = holder)) →
      (LoadOrCreateCanonicalBalanceByAssetHolder
          eng db tok now owner asset holder).1 =
        .ok (mkCanonicalBalance tok now owner asset holder 0,
             db ++ [mkCanonicalBalance tok now owner asset holder 0])
      ∧ (mkCanonicalBalance tok now owner asset holder 0).Value = 0
      ∧ (mkCanonicalBalance tok now owner asset holder 0).Propagation =
          PgType.canonical
      ∧ (mkCanonicalBalance tok now owner asset holder 0).Owner = owner
      ∧ (mkCanonicalBalance tok now owner asset holder 0).Asset = asset
      ∧ (mkCanonicalBalance tok now owner asset holder 0).Holder = holder
      ∧ (mkCanonicalBalance tok now owner asset holder 0).Token = tok)
    ∧ (∀ b, db.find? (fun r => r.Asset == asset && r.Holder == holder) = some b →
        (LoadOrCreateCanonicalBalanceByAssetHolder
            eng db tok now owner asset holder).1 = .ok (b, db)) := by
  constructor
  · intro habs
    have hfind : db.find? (fun r => r.Asset == asset && r.Holder == holder) =
        none := by
      rw [List.find?_eq_none]
      intro r hr
      have := habs r hr
      simp only [Bool.and_eq_true, beq_iff_eq]
      tauto
    have hnoconf :
        insertConflicts db (mkCanonicalBalance tok now owner asset holder 0) =
          false := by
      rw [insertConflicts, List.any_eq_false]
      intro r hr
      simp only [mkCanonicalBalance, Bool.or_eq_true, Bool.and_eq_true,
        beq_iff_eq, not_or]
      refine ⟨htok r hr, ?_⟩
      rintro ⟨⟨hA, hH⟩, _⟩
      exact habs r hr ⟨hA, hH⟩
    refine ⟨?_, rfl, rfl, rfl, rfl, rfl, rfl⟩
    unfold LoadOrCreateCanonicalBalanceByAssetHolder
    rw [show LoadCanonicalBalanceByAssetHolder eng db asset holder =
        (.ok (db.find? fun r => r.Asset == asset && r.Holder == holder),
         [.selectOp asset holder]) from ?_]
    · rw [hfind]
      simp only [CreateCanonicalBalance, insertRow, hf, hnoconf]
      simp
    · simp [LoadCanonicalBalanceByAssetHolder, hf, queryByAssetHolder,
        head?_filter_eq_find?]
  · intro b hb
    unfold LoadOrCreateCanonicalBalanceByAssetHolder
    rw [show LoadCanonicalBalanceByAssetHolder eng db asset holder =
        (.ok (db.find? fun r => r.Asset == asset && r.Holder == holder),
         [.selectOp asset holder]) from ?_]
    · rw [hb]
    · simp [LoadCanonicalBalanceByAssetHolder, hf, queryByAssetHolder,
        head?_filter_eq_find?]

/-- C2 witness: from an empty table the composite creates the zero-valued
canonical row; from the resulting table it loads that row back unchanged. -/
theorem c2_witness :
    (LoadOrCreateCanonicalBalanceByAssetHolder ⟨EngineKind.sqlite, none⟩
        [] "t1" 3 "ow" "as" "ho").1 =
      .ok (mkCanonicalBalance "t1" 3 "ow" "as" "ho" 0,
           [mkCanonicalBalance "t1" 3 "ow" "as" "ho" 0])
    ∧ (LoadOrCreateCanonicalBalanceByAssetHolder ⟨EngineKind.sqlite, none⟩
        [mkCanonicalBalance "t1" 3 "ow" "as" "ho" 0] "t2" 9 "ow" "as" "ho").1 =
      .ok (mkCanonicalBalance "t1" 3 "ow" "as" "ho" 0,
           [mkCanonicalBalance "t1" 3 "ow" "as" "ho" 0]) := by
  constructor
  · have h := (c2_load_or_create_semantics ⟨EngineKind.sqlite, none⟩ [] "t1" 3
      "ow" "as" "ho" rfl (by simp)).1 (by simp)
    simpa using h.1
  · exact (c2_load_or_create_semantics ⟨EngineKind.sqlite, none⟩
      [mkCanonicalBalance "t1" 3 "ow" "as" "ho" 0] "t2" 9
      "ow" "as" "ho" rfl (by decide)).2
      (mkCanonicalBalance "t1" 3 "ow" "as" "ho" 0) (by decide)

theorem insertRow_ok_elim (eng : Engine) (db : DB) (b : Balance) (db2 : DB)
    (h : insertRow eng db b = .ok db2) : db2 = db ++ [b] := by
  unfold insertRow at h
  cases hf : eng.fault with
  | some e => rw [hf] at h; cases h
  | none =>
    rw [hf] at h
    by_cases hc : insertConflicts db b
    · rw [if_pos hc] at h; cases h
    · rw [if_neg hc] at h
      injection h with h
      exact h.symm

theorem create_ok_elim (eng : Engine) (db : DB) (tok : String) (now : Nat)
    (owner asset holder : String) (value : Amount) (b : Balance) (db2 : DB)
    (h : (CreateCanonicalBalance eng db tok now owner asset holder value).1 =
      .ok (b, db2)) :
    b = mkCanonicalBalance tok now owner asset holder value
      ∧ db2 = db ++ [b] := by
  unfold CreateCanonicalBalance at h
  cases hins : insertRow eng db (mkCanonicalBalance tok now owner asset holder value) with
  | ok db3 =>
    rw [hins] at h
    simp only [Except.ok.injEq, Prod.mk.injEq] at h
    obtain ⟨hb, hdb⟩ := h
    refine ⟨hb.symm, ?_⟩
    rw [← hdb, insertRow_ok_elim eng db _ db3 hins, hb]
  | error e =>
    rw [hins] at h
    simp at h

theorem save_ok_elim (eng : Engine) (db : DB) (b : Balance) (db2 : DB)
    (h : (Balance.Save eng db b).1 = .ok db2) : db2 = saveRows db b := by
  unfold Balance.Save at h
  cases hf : eng.fault with
  | some e => rw [hf] at h; simp at h
  | none =>
    rw [hf] at h
    simp only [Except.ok.injEq] at h
    exact h.symm

theorem loadOrCreate_ok_cases (eng : Engine) (db : DB) (tok : String)
    (now : Nat) (owner asset holder : String) (b : Balance) (db2 : DB)
    (h : (LoadOrCreateCanonicalBalanceByAssetHolder
        eng db tok now owner asset holder).1 = .ok (b, db2)) :
    eng.fault = none
    ∧ ((db.find? (fun r => r.Asset == asset && r.Holder == holder) = some b
          ∧ db2 = db)
       ∨ (db.find? (fun r => r.Asset == asset && r.Holder == holder) = none
          ∧ b = mkCanonicalBalance tok now owner asset holder 0
          ∧ db2 = db ++ [b])) := by
  cases hf : eng.fault with
  | some e =>
    exfalso
    unfold LoadOrCreateCanonicalBalanceByAssetHolder
      LoadCanonicalBalanceByAssetHolder at h
    rw [hf] at h
    simp at h
  | none =>
    refine ⟨rfl, ?_⟩
    unfold LoadOrCreateCanonicalBalanceByAssetHolder at h
    rw [show LoadCanonicalBalanceByAssetHolder eng db asset holder =
        (.ok (db.find? fun r => r.Asset == asset && r.Holder == holder),
         [.selectOp asset holder]) from by
      simp [LoadCanonicalBalanceByAssetHolder, hf, queryByAssetHolder,
        head?_filter_eq_find?]] at h
    cases hfind : db.find? (fun r => r.Asset == asset && r.Holder == holder) with
    | some b2 =>
      rw [hfind] at h
      simp only [Except.ok.injEq, Prod.mk.injEq] at h
      left
      exact ⟨congrArg some h.1, h.2.symm⟩
    | none =>
      rw [hfind] at h
      right
      obtain ⟨hb, hdb⟩ := create_ok_elim eng db tok now owner asset holder 0 b db2 h
      exact ⟨rfl, hb, hdb⟩

theorem firstMatchToken_append_left (db l : DB) (asset holder t : String)
    (h : firstMatchToken db asset holder = some t) :
    firstMatchToken (db ++ l) asset holder = some t := by
  unfold firstMatchToken at h ⊢
  cases hfind : db.find? (fun r => r.Asset == asset && r.Holder == holder) with
  | none => rw [hfind] at h; simp at h
  | some r =>
    rw [hfind] at h
    simp only [Option.map_some'] at h
    rw [List.find?_append, hfind]
    simpa using h

theorem firstMatchToken_saveRows (db : DB) (b : Balance)
    (asset holder : String) :
    firstMatchToken (saveRows db b) asset holder =
      firstMatchToken db asset holder := by
  unfold firstMatchToken saveRows
  rw [List.find?_map]
  have hpred : ((fun r : Balance => r.Asset == asset && r.Holder == holder) ∘
      fun r : Balance =>
        if r.Owner == b.Owner && r.Token == b.Token then
          { r with Value := b.Value }
        else r) =
      fun r : Balance => r.Asset == asset && r.Holder == holder := by
    funext r
    simp only [Function.comp]
    split <;> rfl
  rw [hpred]
  cases hfind : db.find? (fun r : Balance => r.Asset == asset && r.Holder == holder) with
  | none => simp
  | some r =>
    simp only [Option.map_some', Option.some.injEq]
    split <;> rfl

theorem applyCall_firstMatchToken (db : DB) (c : StoreCall)
    (asset holder t : String)
    (h : firstMatchToken db asset holder = some t) :
    firstMatchToken (applyCall db c) asset holder = some t := by
  cases c with
  | createCall eng tok now owner asset2 holder2 value =>
    simp only [applyCall]
    split
    · rename_i b db2 heq
      obtain ⟨hb, hdb⟩ :=
        create_ok_elim eng db tok now owner asset2 holder2 value b db2 heq
      rw [hdb]
      exact firstMatchToken_append_left db [b] asset holder t h
    · exact h
  | saveCall eng b =>
    simp only [applyCall]
    split
    · rename_i db2 heq
      rw [save_ok_elim eng db b db2 heq, firstMatchToken_saveRows]
      exact h
    · exact h
  | loadCall eng asset2 holder2 =>
    simp only [applyCall]
    exact h
  | loadOrCreateCall eng tok now owner asset2 holder2 =>
    simp only [applyCall]
    split
    · rename_i b db2 heq
      obtain ⟨hf, hcases⟩ :=
        loadOrCreate_ok_cases eng db tok now owner asset2 holder2 b db2 heq
      rcases hcases with ⟨_, rfl⟩ | ⟨_, _, rfl⟩
      · exact h
      · exact firstMatchToken_append_left db [b] asset holder t h
    · exact h

theorem applyCalls_firstMatchToken (cs : List StoreCall) (db : DB)
    (asset holder t : String)
    (h : firstMatchToken db asset holder = some t) :
    firstMatchToken (applyCalls db cs) asset holder = some t := by
  induction cs generalizing db with
  | nil => exact h
  | cons c cs ih =>
    exact ih (applyCall db c) (applyCall_firstMatchToken db c asset holder t h)

/-- C3: in a sequential execution, once a first load-or-create for
`(asset, holder)` succeeds and returns a balance with token `t`, every later
successful load-or-create for the same pair — after any interleaved store
calls — returns a balance with the same token `t`, and loads rather than
creates (the state is unchanged by the later call). -/
theorem c3_load_or_create_token_stable (eng1 eng2 : Engine) (db : DB)
    (tok1 : String) (now1 : Nat) (owner1 : String)
    (tok2 : String) (now2 : Nat) (owner2 : String)
    (asset holder : String) (cs : List StoreCall)
    (b1 b2 : Balance) (db1 db2 : DB)
    (h1 : (LoadOrCreateCanonicalBalanceByAssetHolder
        eng1 db tok1 now1 owner1 asset holder).1 = .ok (b1, db1))
    (h2 : (LoadOrCreateCanonicalBalanceByAssetHolder
        eng2 (applyCalls db1 cs) tok2 now2 owner2 asset holder).1 =
      .ok (b2, db2)) :
    b2.Token = b1.Token ∧ db2 = applyCalls db1 cs := by
  obtain ⟨hf1, hcase1⟩ :=
    loadOrCreate_ok_cases eng1 db tok1 now1 owner1 asset holder b1 db1 h1
  have hm1 : firstMatchToken db1 asset holder = some b1.Token := by
    rcases hcase1 with ⟨hfind, rfl⟩ | ⟨hfind, hb, rfl⟩
    · unfold firstMatchToken
      rw [hfind]
      rfl
    · unfold firstMatchToken
      rw [List.find?_append, hfind]
      rw [hb]
      simp [mkCanonicalBalance]
  have hm2 := applyCalls_firstMatchToken cs db1 asset holder b1.Token hm1
  obtain ⟨hf2, hcase2⟩ := loadOrCreate_ok_cases eng2 (applyCalls db1 cs)
    tok2 now2 owner2 asset holder b2 db2 h2
  rcases hcase2 with ⟨hfind2, rfl⟩ | ⟨hfind2, _, _⟩
  · unfold firstMatchToken at hm2
    rw [hfind2] at hm2
    simp only [Option.map_some'] at hm2
    exact ⟨by injection hm2, rfl⟩
  · exfalso
    unfold firstMatchToken at hm2
    rw [hfind2] at hm2
    simp at hm2

/-- C3 witness: a first load-or-create on the empty table creates the balance
with token "t1"; the second call, minting a different candidate token "t2",
returns the same token "t1" and leaves the state alone. -/
theorem c3_witness :
    (mkCanonicalBalance "t1" 0 "ow" "as" "ho" 0).Token =
      (mkCanonicalBalance "t1" 0 "ow" "as" "ho" 0).Token
    ∧ ([mkCanonicalBalance "t1" 0 "ow" "as" "ho" 0] : DB) =
      applyCalls [mkCanonicalBalance "t1" 0 "ow" "as" "ho" 0] [] :=
  c3_load_or_create_token_stable ⟨EngineKind.sqlite, none⟩
    ⟨EngineKind.sqlite, none⟩ [] "t1" 0 "ow" "t2" 1 "ow2" "as" "ho" []
    (mkCanonicalBalance "t1" 0 "ow" "as" "ho" 0)
    (mkCanonicalBalance "t1" 0 "ow" "as" "ho" 0)
    [mkCanonicalBalance "t1" 0 "ow" "as" "ho" 0]
    [mkCanonicalBalance "t1" 0 "ow" "as" "ho" 0]
    (by rfl) (by rfl)

theorem saveRows_nonneg (db : DB) (b : Balance)
    (h0 : ∀ r ∈ db, 0 ≤ r.Value) (hb : 0 ≤ b.Value) :
    ∀ r ∈ saveRows db b, 0 ≤ r.Value := by
  intro r hr
  rw [saveRows, List.mem_map] at hr
  obtain ⟨r0, hr0, hfr⟩ := hr
  rw [← hfr]
  split
  · exact hb
  · exact h0 r0 hr0

theorem applyCall_nonneg (db : DB) (c : StoreCall)
    (h0 : ∀ r ∈ db, 0 ≤ r.Value) (hc : callValueNonneg c) :
    ∀ r ∈ applyCall db c, 0 ≤ r.Value := by
  cases c with
  | createCall eng tok now owner asset holder value =>
    simp only [applyCall]
    split
    · rename_i b db2 heq
      obtain ⟨hb, hdb⟩ :=
        create_ok_elim eng db tok now owner asset holder value b db2 heq
      rw [hdb]
      intro r hr
      rcases List.mem_append.mp hr with hr | hr
      · exact h0 r hr
      · rw [List.mem_singleton] at hr
        rw [hr, hb]
        exact hc
    · exact h0
  | saveCall eng b =>
    simp only [applyCall]
    split
    · rename_i db2 heq
      rw [save_ok_elim eng db b db2 heq]
      exact saveRows_nonneg db b h0 hc
    · exact h0
  | loadCall eng asset holder =>
    simp only [applyCall]
    exact h0
  | loadOrCreateCall eng tok now owner asset holder =>
    simp only [applyCall]
    split
    · rename_i b db2 heq
      obtain ⟨hf, hcases⟩ :=
        loadOrCreate_ok_cases eng db tok now owner asset holder b db2 heq
      rcases hcases with ⟨_, rfl⟩ | ⟨_, hb, rfl⟩
      · exact h0
      · intro r hr
        rcases List.mem_append.mp hr with hr | hr
        · exact h0 r hr
        · rw [List.mem_singleton] at hr
          rw [hr, hb]
          exact le_refl 0
    · exact h0

/-- C7 counterexample: the store itself never checks the sign of a value — a
single `CreateCanonicalBalance` call carrying value -1, run from the empty
table, persists a balance whose stored Value is negative. -/
theorem c7_counterexample :
    applyCalls []
        [StoreCall.createCall ⟨EngineKind.sqlite, none⟩ "t" 0 "ow" "as" "ho"
          (-1)] =
      [mkCanonicalBalance "t" 0 "ow" "as" "ho" (-1)]
    ∧ (mkCanonicalBalance "t" 0 "ow" "as" "ho" (-1)).Value < 0 :=
  ⟨rfl, by decide⟩

/-- C7 amended: the store operations preserve non-negativity but do not enforce
it — when the starting table is non-negative and every create and save call
carries a non-negative value (the spec's caller obligation), every persisted
Value in every reachable state is ≥ 0. -/
theorem c7_nonneg_iff_callers_nonneg (db : DB) (cs : List StoreCall)
    (h0 : ∀ r ∈ db, 0 ≤ r.Value) (hcs : ∀ c ∈ cs, callValueNonneg c) :
    ∀ r ∈ applyCalls db cs, 0 ≤ r.Value := by
  induction cs generalizing db with
  | nil => exact h0
  | cons c cs ih =>
    exact ih (applyCall db c)
      (applyCall_nonneg db c h0 (hcs c (List.mem_cons_self c cs)))
      (fun c2 hc2 => hcs c2 (List.mem_cons_of_mem c hc2))

/-- C7 witness: a create of value 2 followed by a save of value 1, from the
empty table, leaves the persisted value of the created row non-negative. -/
theorem c7_witness :
    0 ≤ (mkCanonicalBalance "t" 0 "ow" "as" "ho" 1).Value := by
  refine c7_nonneg_iff_callers_nonneg []
    [StoreCall.createCall ⟨EngineKind.sqlite, none⟩ "t" 0 "ow" "as" "ho" 2,
     StoreCall.saveCall ⟨EngineKind.sqlite, none⟩
       (mkCanonicalBalance "t" 0 "ow" "as" "ho" 1)]
    (by simp) ?_ (mkCanonicalBalance "t" 0 "ow" "as" "ho" 1) ?_
  · intro c hc
    simp only [List.mem_cons, List.mem_singleton, List.not_mem_nil,
      or_false] at hc
    rcases hc with rfl | rfl
    · show (0 : Int) ≤ 2
      norm_num
    · show (0 : Int) ≤ 1
      norm_num
  · decide

/-- C6: contrary to full livemode partitioning, the signing keypair used by
`RetrieveChallenges` is `authentication.RootLiveKeypair` under BOTH livemode
values — production and test share this trust anchor — even though the
`CreateUser` verifier allowlists are per-livemode and disjoint. -/
theorem c6_signing_keypair_not_partitioned :
    retrieveChallengesSigningKeypair false = retrieveChallengesSigningKeypair true
    ∧ retrieveChallengesSigningKeypair false = Keypair.rootLive
    ∧ retrieveChallengesSigningKeypair true = Keypair.rootLive
    ∧ (emailVerifiers true).all
        (fun v => !(emailVerifiers false).contains v) = true :=
  ⟨rfl, rfl, rfl, by decide⟩

/-- C8: a CreateUser request whose earlier format checks pass (valid username,
valid email of bounded length, decodable encrypted seed of bounded length,
existing account) but whose verifier is not in the email-verifier allowlist of
the request's livemode is rejected with HTTP 400 and code
"email_verifier_unknown" — and the controller issues no storage statement, so
no balance or account state is created or modified. -/
theorem c8_untrusted_verifier_rejected (loadAccountOk checkFactOk livemode : Bool)
    (address usernameForm seedForm emailForm verifierForm : String)
    (hu : usernameValid usernameForm = true)
    (he : emailValid (asciiToLower emailForm) = true)
    (hel : (asciiToLower emailForm).length ≤ 256)
    (hs : base64StdValid seedForm = true)
    (hsl : seedForm.length ≤ 256)
    (ha : loadAccountOk = true)
    (hv : (emailVerifiers livemode).contains verifierForm = false) :
    CreateUser loadAccountOk checkFactOk livemode address usernameForm seedForm
        emailForm verifierForm =
      (.rejected ⟨400, "email_verifier_unknown"⟩, []) := by
  simp [CreateUser, hu, he, hs, ha, hv, Nat.not_lt.mpr hel, Nat.not_lt.mpr hsl]
  intro hm
  exact absurd hm (by simpa using hv)

/-- C8 witness: a concrete request with valid username, email and seed, an
existing account and an unknown verifier is rejected with
email_verifier_unknown and an empty effect trace. -/
theorem c8_witness :
    CreateUser true true false "GDADDR" "alice" "" "alice@example.com"
        "notatrustedkey" =
      (.rejected ⟨400, "email_verifier_unknown"⟩, []) :=
  c8_untrusted_verifier_rejected true true false "GDADDR" "alice" ""
    "alice@example.com" "notatrustedkey" (by decide) (by decide) (by decide)
    (by decide) (by decide) rfl (by decide)

/-- C10: `RetrieveChallenges` accepts every count attribute that parses as an
unsigned integer strictly below 100 and mints exactly that many challenges —
including the counts 11 through 99, which all exceed the declared
`MaxRetrieveChallengesCount` of 10, and count 0, which yields the empty list —
and with the attribute absent it mints exactly
`DefaultRetrieveChallengesCount` = 10 challenges. -/
theorem c10_retrieve_challenges_counts {α : Type} (mintOne : Nat → α)
    (attr : String) (n : Nat)
    (hp : parseUint10 attr = some n) (hn : n < 100) :
    RetrieveChallenges mintOne attr = .ok ((List.range n).map mintOne)
    ∧ ((List.range n).map mintOne).length = n
    ∧ RetrieveChallenges mintOne "" =
        .ok ((List.range DefaultRetrieveChallengesCount).map mintOne)
    ∧ ((List.range DefaultRetrieveChallengesCount).map mintOne).length = 10
    ∧ MaxRetrieveChallengesCount = 10
    ∧ ∀ m, 11 ≤ m → m ≤ 99 → MaxRetrieveChallengesCount < m ∧ m < 100 := by
  have hne : (attr == "") = false := by
    rcases eq_or_ne attr "" with rfl | hne
    · rw [show parseUint10 "" = none from by decide] at hp
      cases hp
    · simp [hne]
  refine ⟨?_, by simp, ?_, by simp [DefaultRetrieveChallengesCount], rfl, ?_⟩
  · unfold RetrieveChallenges retrieveChallengesCount
    rw [hne]
    simp [hp, Nat.not_le.mpr hn]
  · unfold RetrieveChallenges retrieveChallengesCount
    simp
  · intro m h1 h2
    refine ⟨?_, ?_⟩
    · show 10 < m
      omega
    · omega

/-- C10 witness: count attribute "42" yields exactly 42 challenges, and the
absent attribute yields exactly 10. -/
theorem c10_witness :
    RetrieveChallenges (fun i => i) "42" = .ok ((List.range 42).map (fun i => i))
    ∧ RetrieveChallenges (fun i => i) "" =
        .ok ((List.range DefaultRetrieveChallengesCount).map (fun i => i))
    ∧ MaxRetrieveChallengesCount < 42 := by
  have h := @c10_retrieve_challenges_counts Nat (fun i => i) "42" 42
    (by decide) (by norm_num)
  exact ⟨h.1, h.2.2.1, (h.2.2.2.2.2 42 (by norm_num) (by norm_num)).1⟩

end Settle
